import Mathlib

/-!
# Verification of the wyoming_supertonic streaming TTS session core

Shallow embedding of the session state machine in
`wyoming_supertonic/handler.py` (class SupertonicEventHandler) and the
language-normalization step of `wyoming_supertonic/supertonic_engine.py`
(method SupertonicEngine.synthesize).

External collaborators are modelled at their interfaces:
* the sentence boundary detector (the external sentence_stream library) is a
  parameter `SbdModel`: an abstract state type with addChunk/finish;
* the synthesis engine call is a parameter `EngineModel.synth` returning
  `Option (pcm bytes, rate)`, where `none` stands for the call raising an
  exception (caught at the flush boundary in the handler);
* outbound protocol events are the inductive `OutEvent`.

Python strings are sequences of code points, so Python string operations are
mapped to code-point-level Lean functions: `str.strip` = `strTrim` (drop
whitespace from both ends of the character list), `len` = `String.length`,
`s[:2]` = `String.take 2`, `.lower()` = `strToLower` (character-wise lower
casing), truthiness of a string = non-emptiness, truthiness of an optional =
presence of a non-empty value.
-/

set_option maxRecDepth 10000

/-- Outbound Wyoming events emitted by the handler
(handler.py imports: AudioStart, AudioChunk, AudioStop, SynthesizeStopped,
Error, and the Info reply to Describe).  PCM payloads are byte lists. -/
inductive OutEvent : Type where
  | info : OutEvent
  | audioStart (rate width channels : Nat) : OutEvent
  | audioChunk (bytes : List Nat) (rate width channels : Nat) : OutEvent
  | audioStop : OutEvent
  | synthesizeStopped : OutEvent
  | error (text code : String) : OutEvent
deriving DecidableEq

/-- Inbound Wyoming events recognized by `handle_event` (handler.py lines
92-154).  A voice name or a language carried in the event payload is an
`Option String`; `none` models an absent field. -/
inductive InEvent : Type where
  | describe : InEvent
  | synthesize (text : String) (voiceName : Option String) (language : Option String) : InEvent
  | synthesizeStart (voiceName : Option String) (language : Option String) : InEvent
  | synthesizeChunk (text : String) : InEvent
  | synthesizeStop : InEvent
deriving DecidableEq

/-- The mutable per-connection fields of SupertonicEventHandler
(handler.py `__init__`, lines 41-46), plus the immutable
`cli_args.no_streaming` flag consulted on SynthesizeStart.
`σ` is the abstract state of the external sentence boundary detector. -/
structure HandlerState (σ : Type) : Type where
  isStreaming : Bool
  audioStarted : Bool
  sentenceBuffer : String
  sbd : σ
  currentVoice : Option String
  currentLanguage : String
  noStreaming : Bool
deriving DecidableEq

/-- Model of the loaded SupertonicEngine as seen by the handler: the voice
catalog (`available_voices`) and the blocking `synthesize` call.  `synth`
returns `none` when the real call would raise an exception, and
`some (pcm, rate)` on success. -/
structure EngineModel : Type where
  availableVoices : List String
  synth : String → String → String → Option (List Nat × Nat)

/-- Model of the external SentenceBoundaryDetector library at its interface:
`init` is a freshly constructed detector, `addChunk` returns the complete
sentences produced plus the new detector state, `finish` returns the trailing
text (the empty string models a falsy/absent remainder). -/
structure SbdModel (σ : Type) : Type where
  init : σ
  addChunk : σ → String → List String × σ
  finish : σ → String

/-- Exception information captured by the outer handler catch
(handler.py line 158): `str(err)` and `err.__class__.__name__`. -/
structure ExcInfo : Type where
  text : String
  code : String

/-- Python `str.strip()`: the string without leading and trailing
whitespace, at the level of code points. -/
def strTrim (s : String) : String :=
  String.mk (((s.data.dropWhile Char.isWhitespace).reverse.dropWhile Char.isWhitespace).reverse)

/-- Python `str.lower()`: character-wise lower casing. -/
def strToLower (s : String) : String :=
  String.mk (s.data.map Char.toLower)

/-- `supported_langs` of SupertonicEngine (supertonic_engine.py line 23). -/
def supportedLangs : List String := ["en", "ko", "es", "pt", "fr"]

/-- Language processing step of `SupertonicEngine.synthesize`
(supertonic_engine.py lines 72-76): a falsy code becomes "en", the code is
cut to its first two characters and lower-cased, and an unsupported result
falls back to the constant "en". -/
def processLang (langCode : String) : String :=
  let lc := if langCode.isEmpty then "en" else langCode
  let short := strToLower (lc.take 2)
  if supportedLangs.contains short then short else "en"

/-- Voice resolution in `_flush_buffer` (handler.py lines 197-201):
start from the constant "M1"; use the current voice when it is truthy and
present in the catalog; otherwise use the first catalog entry when the
catalog is non-empty. -/
def resolveVoice (current : Option String) (catalog : List String) : String :=
  if !(current.getD "").isEmpty && catalog.contains (current.getD "") then current.getD ""
  else if !catalog.isEmpty then catalog.headD "M1"
  else "M1"

/-- `if syn.voice and syn.voice.name: self._current_voice = syn.voice.name`
(handler.py lines 106 and 125-126): a present, non-empty name replaces the
current voice, anything else keeps it. -/
def updVoice : Option String → Option String → Option String
  | some n, cur => if n.isEmpty then cur else some n
  | none, cur => cur

/-- `if lang: self._current_language = lang` (handler.py lines 108 and
128-129): a present, non-empty language replaces the current one. -/
def updLang : Option String → String → String
  | some l, cur => if l.isEmpty then cur else l
  | none, cur => cur

/-- Fuel-driven worker for the chunking loop; the fuel only bounds the
number of iterations so that the recursion is structural (the loop itself
runs `ceil(len / 2048)` times, and `len` fuel is always enough). -/
def chunkBytesAux : Nat → List Nat → List (List Nat)
  | _, [] => []
  | 0, _ :: _ => []
  | fuel + 1, pcm => List.take 2048 pcm :: chunkBytesAux fuel (List.drop 2048 pcm)

/-- The chunking loop of `_flush_buffer` (handler.py lines 218-222):
`for i in range(0, len(pcm_bytes), 2048): pcm_bytes[i : i + 2048]`,
i.e. consecutive non-overlapping 2048-byte slices in order, the last one
possibly shorter. -/
def chunkBytes (pcm : List Nat) : List (List Nat) :=
  chunkBytesAux pcm.length pcm

theorem chunkBytesAux_fuel (f1 : Nat) :
    ∀ f2 pcm, List.length pcm ≤ f1 → List.length pcm ≤ f2 →
      chunkBytesAux f1 pcm = chunkBytesAux f2 pcm := by
  induction f1 with
  | zero =>
    intro f2 pcm h1 _
    have : pcm = [] := List.eq_nil_of_length_eq_zero (by omega)
    subst this
    cases f2 <;> rfl
  | succ f ih =>
    intro f2 pcm h1 h2
    cases pcm with
    | nil => cases f2 <;> rfl
    | cons a t =>
      cases f2 with
      | zero => simp at h2
      | succ g =>
        show List.take 2048 (a :: t) :: chunkBytesAux f (List.drop 2048 (a :: t)) =
          List.take 2048 (a :: t) :: chunkBytesAux g (List.drop 2048 (a :: t))
        have hd : (List.drop 2048 (a :: t)).length ≤ f := by
          simp [List.length_drop] at *
          omega
        have hd2 : (List.drop 2048 (a :: t)).length ≤ g := by
          simp [List.length_drop] at *
          omega
        rw [ih _ _ hd hd2]

theorem chunkBytes_nil : chunkBytes [] = [] := rfl

theorem chunkBytes_cons (pcm : List Nat) (h : pcm ≠ []) :
    chunkBytes pcm = List.take 2048 pcm :: chunkBytes (List.drop 2048 pcm) := by
  cases pcm with
  | nil => exact absurd rfl h
  | cons a t =>
    show chunkBytesAux (t.length + 1) (a :: t) = _
    show List.take 2048 (a :: t) :: chunkBytesAux t.length (List.drop 2048 (a :: t)) = _
    have hd : (List.drop 2048 (a :: t)).length ≤ t.length := by
      simp [List.length_drop]
    rw [chunkBytesAux_fuel t.length _ _ hd (le_refl _)]
    rfl

theorem chunkBytes_eq_nil_iff (pcm : List Nat) : chunkBytes pcm = [] ↔ pcm = [] := by
  constructor
  · intro h
    by_contra hne
    rw [chunkBytes_cons pcm hne] at h
    exact List.cons_ne_nil _ _ h
  · intro h; rw [h]; exact chunkBytes_nil

theorem chunkBytes_drop_le {pcm : List Nat} {n : Nat} (hp : pcm ≠ [])
    (h : pcm.length ≤ n + 1) : (List.drop 2048 pcm).length ≤ n := by
  have hpos : 0 < pcm.length := List.length_pos.mpr hp
  simp [List.length_drop]
  omega

theorem chunkBytes_join (pcm : List Nat) : List.flatten (chunkBytes pcm) = pcm := by
  have H : ∀ n pcm0, List.length pcm0 ≤ n → List.flatten (chunkBytes pcm0) = pcm0 := by
    intro n
    induction n with
    | zero =>
      intro pcm0 h
      have : pcm0 = [] := List.eq_nil_of_length_eq_zero (by omega)
      subst this; rw [chunkBytes_nil]; rfl
    | succ n ih =>
      intro pcm0 h
      by_cases hp : pcm0 = []
      · subst hp; rw [chunkBytes_nil]; rfl
      · rw [chunkBytes_cons pcm0 hp, List.flatten_cons,
          ih _ (chunkBytes_drop_le hp h), List.take_append_drop]
  exact H pcm.length pcm (le_refl _)

theorem chunkBytes_mem (pcm : List Nat) :
    ∀ b ∈ chunkBytes pcm, b.length ≤ 2048 ∧ b ≠ [] := by
  have H : ∀ n pcm0, List.length pcm0 ≤ n →
      ∀ b ∈ chunkBytes pcm0, b.length ≤ 2048 ∧ b ≠ [] := by
    intro n
    induction n with
    | zero =>
      intro pcm0 h
      have : pcm0 = [] := List.eq_nil_of_length_eq_zero (by omega)
      subst this; rw [chunkBytes_nil]; intro b hb; exact absurd hb (List.not_mem_nil b)
    | succ n ih =>
      intro pcm0 h
      by_cases hp : pcm0 = []
      · subst hp; rw [chunkBytes_nil]; intro b hb; exact absurd hb (List.not_mem_nil b)
      · rw [chunkBytes_cons pcm0 hp]
        intro b hb
        rcases List.mem_cons.mp hb with hb | hb
        · subst hb
          refine ⟨by simp [List.length_take], ?_⟩
          simp [List.take_eq_nil_iff, hp]
        · exact ih _ (chunkBytes_drop_le hp h) b hb
  exact H pcm.length pcm (le_refl _)

theorem chunkBytes_nonfinal (pcm : List Nat) :
    ∀ i : Nat, i + 1 < (chunkBytes pcm).length →
      (List.getD (chunkBytes pcm) i []).length = 2048 := by
  have H : ∀ n pcm0, List.length pcm0 ≤ n →
      ∀ i : Nat, i + 1 < (chunkBytes pcm0).length →
        (List.getD (chunkBytes pcm0) i []).length = 2048 := by
    intro n
    induction n with
    | zero =>
      intro pcm0 h i hi
      have : pcm0 = [] := List.eq_nil_of_length_eq_zero (by omega)
      subst this; rw [chunkBytes_nil] at hi; simp at hi
    | succ n ih =>
      intro pcm0 h i hi
      by_cases hp : pcm0 = []
      · subst hp; rw [chunkBytes_nil] at hi; simp at hi
      · rw [chunkBytes_cons pcm0 hp] at hi ⊢
        cases i with
        | zero =>
          have hd : List.drop 2048 pcm0 ≠ [] := by
            intro hh
            rw [hh, chunkBytes_nil] at hi
            simp at hi
          have hlen : 2048 < pcm0.length := by
            by_contra hle
            exact hd (List.drop_eq_nil_iff.mpr (by omega))
          simp [List.length_take]
          omega
        | succ j =>
          have hj : j + 1 < (chunkBytes (List.drop 2048 pcm0)).length := by
            simp at hi
            omega
          simpa using ih _ (chunkBytes_drop_le hp h) j hj
  exact H pcm.length pcm (le_refl _)

/-- `_flush_buffer` after the emptiness guard (handler.py lines 197-222):
resolve the voice, call the engine via the executor; on an exception
(`none`) log and return with no events; on success emit AudioStart once per
utterance followed by the 2048-byte AudioChunk slices. -/
def engineDispatch {σ : Type} (eng : EngineModel) (st : HandlerState σ) (text : String) :
    HandlerState σ × List OutEvent :=
  let voiceName := resolveVoice st.currentVoice eng.availableVoices
  match eng.synth text voiceName st.currentLanguage with
  | none => (st, [])
  | some (pcm, rate) =>
    if st.audioStarted then
      (st, List.map (fun b => OutEvent.audioChunk b rate 2 1) (chunkBytes pcm))
    else
      ({ st with audioStarted := true },
       OutEvent.audioStart rate 2 1 :: List.map (fun b => OutEvent.audioChunk b rate 2 1) (chunkBytes pcm))

/-- `_flush_buffer` (handler.py lines 192-222): take the trimmed buffer,
clear the buffer field, return silently when the text is empty, otherwise
dispatch to the engine. -/
def flushBuffer {σ : Type} (eng : EngineModel) (st : HandlerState σ) :
    HandlerState σ × List OutEvent :=
  let text := strTrim st.sentenceBuffer
  let st1 : HandlerState σ := { st with sentenceBuffer := "" }
  if text.isEmpty then (st1, [])
  else engineDispatch eng st1 text

/-- `_process_sentence` (handler.py lines 180-190): strip the sentence,
ignore it when empty, append it to the buffer space-joined, and flush once
the buffer holds at least 20 characters. -/
def processSentence {σ : Type} (eng : EngineModel) (st : HandlerState σ) (sentence : String) :
    HandlerState σ × List OutEvent :=
  let s := strTrim sentence
  if s.isEmpty then (st, [])
  else
    let buf := if st.sentenceBuffer.isEmpty then s else st.sentenceBuffer ++ " " ++ s
    let st1 : HandlerState σ := { st with sentenceBuffer := buf }
    if 20 ≤ buf.length then flushBuffer eng st1 else (st1, [])

/-- The `for sentence in ...: await self._process_sentence(sentence)` loops
(handler.py lines 138-139 and 172-173), processing sentences in order and
concatenating the emitted events. -/
def processSentences {σ : Type} (eng : EngineModel) :
    HandlerState σ → List String → HandlerState σ × List OutEvent
  | st, [] => (st, [])
  | st, s :: rest =>
    let p1 := processSentence eng st s
    let p2 := processSentences eng p1.1 rest
    (p2.1, p1.2 ++ p2.2)

/-- The per-utterance reset at the top of `_handle_synthesize_full`
(handler.py lines 164-166) combined with feeding the whole text to the fresh
detector (line 168): audio flag cleared, buffer cleared, detector state after
a fresh construction followed by `add_chunk(text)`. -/
def synthResetState {σ : Type} (sbdM : SbdModel σ) (st : HandlerState σ) (text : String) :
    HandlerState σ :=
  { st with audioStarted := false, sentenceBuffer := "",
            sbd := (sbdM.addChunk sbdM.init text).2 }

/-- The sentence list built by `_handle_synthesize_full` (handler.py lines
168-170): all sentences from `add_chunk(text)` on a fresh detector, plus the
`finish()` remainder when truthy. -/
def synthSentences {σ : Type} (sbdM : SbdModel σ) (text : String) : List String :=
  let p := sbdM.addChunk sbdM.init text
  let remaining := sbdM.finish p.2
  if remaining.isEmpty then p.1 else p.1 ++ [remaining]

/-- `_handle_synthesize_full` (handler.py lines 163-178): reset the
per-utterance state with a fresh detector, segment the whole text at once,
append a truthy remainder, process every sentence, final flush, and emit
AudioStop when audio was started.  Returns True. -/
def handleSynthesizeFull {σ : Type} (eng : EngineModel) (sbdM : SbdModel σ)
    (st : HandlerState σ) (text : String) : HandlerState σ × List OutEvent × Bool :=
  let q1 := processSentences eng (synthResetState sbdM st text) (synthSentences sbdM text)
  let q2 := flushBuffer eng q1.1
  (q2.1, q1.2 ++ q2.2 ++ (if q2.1.audioStarted then [OutEvent.audioStop] else []), true)

/-- Body of the try block of `handle_event` (handler.py lines 97-154),
one branch per recognized event kind; the final component is `Except.ok`
of the returned bool (no branch of this deterministic model raises). -/
def handleEventBody {σ : Type} (eng : EngineModel) (sbdM : SbdModel σ)
    (ev : InEvent) (st : HandlerState σ) :
    HandlerState σ × List OutEvent × Except ExcInfo Bool :=
  match ev with
  | InEvent.describe => (st, [], Except.ok true)
  | InEvent.synthesize text v l =>
    if st.isStreaming then (st, [], Except.ok true)
    else
      let st1 : HandlerState σ :=
        { st with currentVoice := updVoice v st.currentVoice,
                  currentLanguage := updLang l st.currentLanguage }
      let r := handleSynthesizeFull eng sbdM st1 text
      (r.1, r.2.1, Except.ok r.2.2)
  | InEvent.synthesizeStart v l =>
    if st.noStreaming then (st, [], Except.ok true)
    else
      ({ st with isStreaming := true, audioStarted := false, sbd := sbdM.init,
                 sentenceBuffer := "",
                 currentVoice := updVoice v st.currentVoice,
                 currentLanguage := updLang l st.currentLanguage }, [], Except.ok true)
  | InEvent.synthesizeChunk text =>
    if st.isStreaming then
      let p := sbdM.addChunk st.sbd text
      let q := processSentences eng { st with sbd := p.2 } p.1
      (q.1, q.2, Except.ok true)
    else (st, [], Except.ok true)
  | InEvent.synthesizeStop =>
    if st.isStreaming then
      let remaining := sbdM.finish st.sbd
      let p1 := if remaining.isEmpty then (st, ([] : List OutEvent))
                else processSentence eng st remaining
      let p2 := flushBuffer eng p1.1
      ({ p2.1 with isStreaming := false },
       p1.2 ++ p2.2 ++ (if p2.1.audioStarted then [OutEvent.audioStop] else []) ++
         [OutEvent.synthesizeStopped],
       Except.ok true)
    else (st, [], Except.ok true)

/-- The outer except clause of `handle_event` (handler.py lines 156-161):
a normal result passes through; an exception yields an Error event carrying
`str(err)` and the class name, forces `_is_streaming = False`, and still
returns True. -/
def applyCatch {σ : Type} (r : HandlerState σ × List OutEvent × Except ExcInfo Bool) :
    HandlerState σ × List OutEvent × Bool :=
  match r with
  | (st, outs, Except.ok b) => (st, outs, b)
  | (st, outs, Except.error e) =>
    ({ st with isStreaming := false }, outs ++ [OutEvent.error e.text e.code], true)

/-- `handle_event` (handler.py lines 92-161): the Describe reply sits before
the try block; every other event goes through the body guarded by the catch
boundary. -/
def handleEvent {σ : Type} (eng : EngineModel) (sbdM : SbdModel σ)
    (ev : InEvent) (st : HandlerState σ) : HandlerState σ × List OutEvent × Bool :=
  match ev with
  | InEvent.describe => (st, [OutEvent.info], true)
  | _ => applyCatch (handleEventBody eng sbdM ev st)

/-- The per-connection event loop of `run_raw` restricted to its calls of
`handle_event` (handler.py lines 78-79): events are handled strictly in
order, stopping when `handle_event` returns False. -/
def runEvents {σ : Type} (eng : EngineModel) (sbdM : SbdModel σ) :
    List InEvent → HandlerState σ → HandlerState σ × List OutEvent
  | [], st => (st, [])
  | ev :: rest, st =>
    let r := handleEvent eng sbdM ev st
    if r.2.2 then
      let q := runEvents eng sbdM rest r.1
      (q.1, r.2.1 ++ q.2)
    else (r.1, r.2.1)

/-- The handler state right after `__init__` (handler.py lines 41-46) for a
server started with the default `--language en` and streaming enabled. -/
def initState : HandlerState Unit :=
  { isStreaming := false, audioStarted := false, sentenceBuffer := "",
    sbd := (), currentVoice := none, currentLanguage := "en", noStreaming := false }

/-- A concrete sentence boundary detector model: every added chunk is
reported as one complete sentence, nothing is held back. -/
def idSbd : SbdModel Unit :=
  { init := (), addChunk := fun _ c => ([c], ()), finish := fun _ => "" }

/-- A concrete engine model: one catalog voice "M1"; every call succeeds with
the three PCM bytes [1, 2, 3] at 44100 Hz. -/
def okEngine : EngineModel :=
  { availableVoices := ["M1"], synth := fun _ _ _ => some ([1, 2, 3], 44100) }

/-- A concrete engine model whose synthesize call always raises. -/
def failEngine : EngineModel :=
  { availableVoices := ["M1"], synth := fun _ _ _ => none }

/-- Recognizer for AudioStart events. -/
def isStart : OutEvent → Bool
  | OutEvent.audioStart _ _ _ => true
  | _ => false

/-- Recognizer for AudioStop events. -/
def isStop : OutEvent → Bool
  | OutEvent.audioStop => true
  | _ => false

theorem any_isStop_iff (outs : List OutEvent) :
    outs.any isStop = true ↔ OutEvent.audioStop ∈ outs := by
  rw [List.any_eq_true]
  constructor
  · rintro ⟨e, he, hs⟩
    cases e <;> simp [isStop] at hs
    exact he
  · intro h
    exact ⟨OutEvent.audioStop, h, rfl⟩


theorem any_isStart_map_chunk (l : List (List Nat)) (rate w c : Nat) :
    (l.map fun b => OutEvent.audioChunk b rate w c).any isStart = false := by
  induction l with
  | nil => rfl
  | cons x t ih => simp [isStart, ih]

theorem any_isStop_map_chunk (l : List (List Nat)) (rate w c : Nat) :
    (l.map fun b => OutEvent.audioChunk b rate w c).any isStop = false := by
  induction l with
  | nil => rfl
  | cons x t ih => simp [isStop, ih]

theorem engineDispatch_fields {σ : Type} (eng : EngineModel) (st : HandlerState σ) (text : String) :
    (engineDispatch eng st text).1.isStreaming = st.isStreaming ∧
    (engineDispatch eng st text).1.sentenceBuffer = st.sentenceBuffer ∧
    (engineDispatch eng st text).1.sbd = st.sbd ∧
    (engineDispatch eng st text).1.currentVoice = st.currentVoice ∧
    (engineDispatch eng st text).1.currentLanguage = st.currentLanguage ∧
    (engineDispatch eng st text).1.noStreaming = st.noStreaming := by
  unfold engineDispatch
  dsimp only
  split
  · exact ⟨rfl, rfl, rfl, rfl, rfl, rfl⟩
  · split
    · exact ⟨rfl, rfl, rfl, rfl, rfl, rfl⟩
    · exact ⟨rfl, rfl, rfl, rfl, rfl, rfl⟩

theorem engineDispatch_started {σ : Type} (eng : EngineModel) (st : HandlerState σ) (text : String) :
    (engineDispatch eng st text).1.audioStarted =
      (st.audioStarted || (engineDispatch eng st text).2.any isStart) := by
  unfold engineDispatch
  dsimp only
  split
  · simp
  · next pcm rate =>
    split
    · next hA => simp [hA, any_isStart_map_chunk]
    · next hA =>
      simp at hA
      simp [hA, isStart, any_isStart_map_chunk]

theorem engineDispatch_noStop {σ : Type} (eng : EngineModel) (st : HandlerState σ) (text : String) :
    (engineDispatch eng st text).2.any isStop = false := by
  unfold engineDispatch
  dsimp only
  split
  · simp
  · next pcm rate =>
    split
    · simp [any_isStop_map_chunk]
    · simp [isStop, any_isStop_map_chunk]

theorem flushBuffer_fields {σ : Type} (eng : EngineModel) (st : HandlerState σ) :
    (flushBuffer eng st).1.isStreaming = st.isStreaming ∧
    (flushBuffer eng st).1.sentenceBuffer = "" ∧
    (flushBuffer eng st).1.sbd = st.sbd ∧
    (flushBuffer eng st).1.currentVoice = st.currentVoice ∧
    (flushBuffer eng st).1.currentLanguage = st.currentLanguage ∧
    (flushBuffer eng st).1.noStreaming = st.noStreaming := by
  unfold flushBuffer
  dsimp only
  split
  · exact ⟨rfl, rfl, rfl, rfl, rfl, rfl⟩
  · exact engineDispatch_fields eng { st with sentenceBuffer := "" } (strTrim st.sentenceBuffer)

theorem flushBuffer_started {σ : Type} (eng : EngineModel) (st : HandlerState σ) :
    (flushBuffer eng st).1.audioStarted =
      (st.audioStarted || (flushBuffer eng st).2.any isStart) := by
  unfold flushBuffer
  dsimp only
  split
  · simp
  · exact engineDispatch_started eng { st with sentenceBuffer := "" } (strTrim st.sentenceBuffer)

theorem flushBuffer_noStop {σ : Type} (eng : EngineModel) (st : HandlerState σ) :
    (flushBuffer eng st).2.any isStop = false := by
  unfold flushBuffer
  dsimp only
  split
  · simp
  · exact engineDispatch_noStop eng { st with sentenceBuffer := "" } (strTrim st.sentenceBuffer)

theorem processSentence_cases {σ : Type} (eng : EngineModel) (st : HandlerState σ) (sen : String) :
    processSentence eng st sen = (st, []) ∨
    ∃ buf : String,
      processSentence eng st sen = flushBuffer eng { st with sentenceBuffer := buf } ∨
      processSentence eng st sen = ({ st with sentenceBuffer := buf }, []) := by
  unfold processSentence
  dsimp only
  split
  · exact Or.inl rfl
  · right
    split
    · split
      · exact ⟨strTrim sen, Or.inl rfl⟩
      · exact ⟨strTrim sen, Or.inr rfl⟩
    · split
      · exact ⟨st.sentenceBuffer ++ " " ++ strTrim sen, Or.inl rfl⟩
      · exact ⟨st.sentenceBuffer ++ " " ++ strTrim sen, Or.inr rfl⟩

theorem processSentence_fields {σ : Type} (eng : EngineModel) (st : HandlerState σ) (sen : String) :
    (processSentence eng st sen).1.isStreaming = st.isStreaming ∧
    (processSentence eng st sen).1.sbd = st.sbd ∧
    (processSentence eng st sen).1.currentVoice = st.currentVoice ∧
    (processSentence eng st sen).1.currentLanguage = st.currentLanguage ∧
    (processSentence eng st sen).1.noStreaming = st.noStreaming := by
  rcases processSentence_cases eng st sen with h | ⟨buf, h | h⟩ <;> rw [h]
  · exact ⟨rfl, rfl, rfl, rfl, rfl⟩
  · have hh := flushBuffer_fields eng { st with sentenceBuffer := buf }
    exact ⟨hh.1, hh.2.2.1, hh.2.2.2.1, hh.2.2.2.2.1, hh.2.2.2.2.2⟩
  · exact ⟨rfl, rfl, rfl, rfl, rfl⟩

theorem processSentence_started {σ : Type} (eng : EngineModel) (st : HandlerState σ) (sen : String) :
    (processSentence eng st sen).1.audioStarted =
      (st.audioStarted || (processSentence eng st sen).2.any isStart) := by
  rcases processSentence_cases eng st sen with h | ⟨buf, h | h⟩ <;> rw [h]
  · simp
  · exact flushBuffer_started eng { st with sentenceBuffer := buf }
  · simp

theorem processSentence_noStop {σ : Type} (eng : EngineModel) (st : HandlerState σ) (sen : String) :
    (processSentence eng st sen).2.any isStop = false := by
  rcases processSentence_cases eng st sen with h | ⟨buf, h | h⟩ <;> rw [h]
  · rfl
  · exact flushBuffer_noStop eng { st with sentenceBuffer := buf }
  · rfl

theorem processSentences_cons {σ : Type} (eng : EngineModel) (st : HandlerState σ)
    (s : String) (rest : List String) :
    processSentences eng st (s :: rest) =
      ((processSentences eng (processSentence eng st s).1 rest).1,
       (processSentence eng st s).2 ++ (processSentences eng (processSentence eng st s).1 rest).2) := rfl

theorem processSentences_fields {σ : Type} (eng : EngineModel) (st : HandlerState σ)
    (sens : List String) :
    (processSentences eng st sens).1.isStreaming = st.isStreaming ∧
    (processSentences eng st sens).1.sbd = st.sbd ∧
    (processSentences eng st sens).1.currentVoice = st.currentVoice ∧
    (processSentences eng st sens).1.currentLanguage = st.currentLanguage ∧
    (processSentences eng st sens).1.noStreaming = st.noStreaming := by
  induction sens generalizing st with
  | nil => exact ⟨rfl, rfl, rfl, rfl, rfl⟩
  | cons s rest ih =>
    rw [processSentences_cons]
    have h1 := processSentence_fields eng st s
    have h2 := ih (processSentence eng st s).1
    exact ⟨h2.1.trans h1.1, h2.2.1.trans h1.2.1, h2.2.2.1.trans h1.2.2.1,
      h2.2.2.2.1.trans h1.2.2.2.1, h2.2.2.2.2.trans h1.2.2.2.2⟩

theorem processSentences_started {σ : Type} (eng : EngineModel) (st : HandlerState σ)
    (sens : List String) :
    (processSentences eng st sens).1.audioStarted =
      (st.audioStarted || (processSentences eng st sens).2.any isStart) := by
  induction sens generalizing st with
  | nil => simp [processSentences]
  | cons s rest ih =>
    rw [processSentences_cons]
    dsimp only
    rw [List.any_append, ih (processSentence eng st s).1, processSentence_started eng st s]
    cases st.audioStarted <;> cases ((processSentence eng st s).2.any isStart) <;> simp

theorem processSentences_noStop {σ : Type} (eng : EngineModel) (st : HandlerState σ)
    (sens : List String) :
    (processSentences eng st sens).2.any isStop = false := by
  induction sens generalizing st with
  | nil => rfl
  | cons s rest ih =>
    rw [processSentences_cons]
    dsimp only
    rw [List.any_append, processSentence_noStop eng st s, ih (processSentence eng st s).1]
    rfl

theorem handleSynthesizeFull_fields {σ : Type} (eng : EngineModel) (sbdM : SbdModel σ)
    (st : HandlerState σ) (text : String) :
    (handleSynthesizeFull eng sbdM st text).1.isStreaming = st.isStreaming ∧
    (handleSynthesizeFull eng sbdM st text).1.currentVoice = st.currentVoice ∧
    (handleSynthesizeFull eng sbdM st text).1.currentLanguage = st.currentLanguage ∧
    (handleSynthesizeFull eng sbdM st text).1.noStreaming = st.noStreaming := by
  unfold handleSynthesizeFull
  dsimp only
  have hf := flushBuffer_fields eng
    (processSentences eng (synthResetState sbdM st text) (synthSentences sbdM text)).1
  have hp := processSentences_fields eng (synthResetState sbdM st text) (synthSentences sbdM text)
  refine ⟨?_, ?_, ?_, ?_⟩
  · rw [hf.1, hp.1]; rfl
  · rw [hf.2.2.2.1, hp.2.2.1]; rfl
  · rw [hf.2.2.2.2.1, hp.2.2.2.1]; rfl
  · rw [hf.2.2.2.2.2, hp.2.2.2.2]; rfl

theorem handleSynthesizeFull_outs {σ : Type} (eng : EngineModel) (sbdM : SbdModel σ)
    (st : HandlerState σ) (text : String) :
    (handleSynthesizeFull eng sbdM st text).2.1.any isStop =
      (handleSynthesizeFull eng sbdM st text).2.1.any isStart := by
  unfold handleSynthesizeFull
  dsimp only
  have hS : (flushBuffer eng
      (processSentences eng (synthResetState sbdM st text) (synthSentences sbdM text)).1).1.audioStarted =
      ((processSentences eng (synthResetState sbdM st text) (synthSentences sbdM text)).2.any isStart ||
       (flushBuffer eng
         (processSentences eng (synthResetState sbdM st text) (synthSentences sbdM text)).1).2.any isStart) := by
    rw [flushBuffer_started, processSentences_started]
    have h0 : (synthResetState sbdM st text).audioStarted = false := rfl
    rw [h0]
    simp
  rw [List.any_append, List.any_append, List.any_append, List.any_append]
  rw [processSentences_noStop, flushBuffer_noStop]
  cases hq1 : (processSentences eng (synthResetState sbdM st text)
      (synthSentences sbdM text)).2.any isStart <;>
    cases hq2 : (flushBuffer eng (processSentences eng (synthResetState sbdM st text)
        (synthSentences sbdM text)).1).2.any isStart <;>
      rw [hq1, hq2] at hS <;> rw [hS] <;> simp [isStop, isStart]

theorem handleEvent_describe {σ : Type} (eng : EngineModel) (sbdM : SbdModel σ)
    (st : HandlerState σ) :
    handleEvent eng sbdM InEvent.describe st = (st, [OutEvent.info], true) := rfl

theorem handleEvent_synthesize_streaming {σ : Type} (eng : EngineModel) (sbdM : SbdModel σ)
    (st : HandlerState σ) (text : String) (v l : Option String)
    (h : st.isStreaming = true) :
    handleEvent eng sbdM (InEvent.synthesize text v l) st = (st, [], true) := by
  unfold handleEvent handleEventBody
  dsimp only
  rw [h]
  rfl

theorem handleEvent_synthesize_idle {σ : Type} (eng : EngineModel) (sbdM : SbdModel σ)
    (st : HandlerState σ) (text : String) (v l : Option String)
    (h : st.isStreaming = false) :
    handleEvent eng sbdM (InEvent.synthesize text v l) st =
      ((handleSynthesizeFull eng sbdM
          { st with currentVoice := updVoice v st.currentVoice,
                    currentLanguage := updLang l st.currentLanguage } text).1,
       (handleSynthesizeFull eng sbdM
          { st with currentVoice := updVoice v st.currentVoice,
                    currentLanguage := updLang l st.currentLanguage } text).2.1,
       true) := by
  unfold handleEvent handleEventBody
  dsimp only
  rw [h]
  rfl

theorem handleEvent_start_enabled {σ : Type} (eng : EngineModel) (sbdM : SbdModel σ)
    (st : HandlerState σ) (v l : Option String) (h : st.noStreaming = false) :
    handleEvent eng sbdM (InEvent.synthesizeStart v l) st =
      ({ st with isStreaming := true, audioStarted := false, sbd := sbdM.init,
                 sentenceBuffer := "",
                 currentVoice := updVoice v st.currentVoice,
                 currentLanguage := updLang l st.currentLanguage }, [], true) := by
  unfold handleEvent handleEventBody
  dsimp only
  rw [h]
  rfl

theorem handleEvent_start_disabled {σ : Type} (eng : EngineModel) (sbdM : SbdModel σ)
    (st : HandlerState σ) (v l : Option String) (h : st.noStreaming = true) :
    handleEvent eng sbdM (InEvent.synthesizeStart v l) st = (st, [], true) := by
  unfold handleEvent handleEventBody
  dsimp only
  rw [h]
  rfl

theorem handleEvent_chunk_streaming {σ : Type} (eng : EngineModel) (sbdM : SbdModel σ)
    (st : HandlerState σ) (text : String) (h : st.isStreaming = true) :
    handleEvent eng sbdM (InEvent.synthesizeChunk text) st =
      ((processSentences eng { st with sbd := (sbdM.addChunk st.sbd text).2 }
          (sbdM.addChunk st.sbd text).1).1,
       (processSentences eng { st with sbd := (sbdM.addChunk st.sbd text).2 }
          (sbdM.addChunk st.sbd text).1).2, true) := by
  unfold handleEvent handleEventBody
  dsimp only
  rw [h]
  rfl

theorem handleEvent_chunk_idle {σ : Type} (eng : EngineModel) (sbdM : SbdModel σ)
    (st : HandlerState σ) (text : String) (h : st.isStreaming = false) :
    handleEvent eng sbdM (InEvent.synthesizeChunk text) st = (st, [], true) := by
  unfold handleEvent handleEventBody
  dsimp only
  rw [h]
  rfl

theorem handleEvent_stop_streaming {σ : Type} (eng : EngineModel) (sbdM : SbdModel σ)
    (st : HandlerState σ) (h : st.isStreaming = true) :
    handleEvent eng sbdM InEvent.synthesizeStop st =
      (let p1 := if (sbdM.finish st.sbd).isEmpty then (st, ([] : List OutEvent))
                 else processSentence eng st (sbdM.finish st.sbd)
       let p2 := flushBuffer eng p1.1
       ({ p2.1 with isStreaming := false },
        p1.2 ++ p2.2 ++ (if p2.1.audioStarted then [OutEvent.audioStop] else []) ++
          [OutEvent.synthesizeStopped],
        true)) := by
  unfold handleEvent handleEventBody
  dsimp only
  rw [h]
  rfl

theorem handleEvent_stop_idle {σ : Type} (eng : EngineModel) (sbdM : SbdModel σ)
    (st : HandlerState σ) (h : st.isStreaming = false) :
    handleEvent eng sbdM InEvent.synthesizeStop st = (st, [], true) := by
  unfold handleEvent handleEventBody
  dsimp only
  rw [h]
  rfl

theorem handleEvent_rtrue {σ : Type} (eng : EngineModel) (sbdM : SbdModel σ)
    (ev : InEvent) (st : HandlerState σ) :
    (handleEvent eng sbdM ev st).2.2 = true := by
  cases ev with
  | describe => rfl
  | synthesize text v l =>
    cases h : st.isStreaming
    · rw [handleEvent_synthesize_idle eng sbdM st text v l h]
    · rw [handleEvent_synthesize_streaming eng sbdM st text v l h]
  | synthesizeStart v l =>
    cases h : st.noStreaming
    · rw [handleEvent_start_enabled eng sbdM st v l h]
    · rw [handleEvent_start_disabled eng sbdM st v l h]
  | synthesizeChunk text =>
    cases h : st.isStreaming
    · rw [handleEvent_chunk_idle eng sbdM st text h]
    · rw [handleEvent_chunk_streaming eng sbdM st text h]
  | synthesizeStop =>
    cases h : st.isStreaming
    · rw [handleEvent_stop_idle eng sbdM st h]
    · rw [handleEvent_stop_streaming eng sbdM st h]

theorem runEvents_nil {σ : Type} (eng : EngineModel) (sbdM : SbdModel σ) (st : HandlerState σ) :
    runEvents eng sbdM [] st = (st, []) := rfl

theorem runEvents_cons {σ : Type} (eng : EngineModel) (sbdM : SbdModel σ)
    (ev : InEvent) (rest : List InEvent) (st : HandlerState σ) :
    runEvents eng sbdM (ev :: rest) st =
      ((runEvents eng sbdM rest (handleEvent eng sbdM ev st).1).1,
       (handleEvent eng sbdM ev st).2.1 ++
         (runEvents eng sbdM rest (handleEvent eng sbdM ev st).1).2) := by
  conv_lhs => unfold runEvents
  dsimp only
  rw [handleEvent_rtrue eng sbdM ev st]
  rfl

theorem runEvents_append {σ : Type} (eng : EngineModel) (sbdM : SbdModel σ)
    (l1 l2 : List InEvent) (st : HandlerState σ) :
    runEvents eng sbdM (l1 ++ l2) st =
      ((runEvents eng sbdM l2 (runEvents eng sbdM l1 st).1).1,
       (runEvents eng sbdM l1 st).2 ++
         (runEvents eng sbdM l2 (runEvents eng sbdM l1 st).1).2) := by
  induction l1 generalizing st with
  | nil => rw [runEvents_nil]; simp
  | cons ev rest ih =>
    rw [List.cons_append, runEvents_cons, runEvents_cons, ih]
    simp [List.append_assoc]

theorem stop_out_helper (sA : Bool) (o1 o2 : List OutEvent) (fin : Bool)
    (h1 : o1.any isStop = false) (h2 : o2.any isStop = false)
    (hf : fin = (sA || (o1.any isStart || o2.any isStart))) :
    ((o1 ++ o2 ++ (if fin then [OutEvent.audioStop] else []) ++
        [OutEvent.synthesizeStopped]).any isStop =
      (sA || (o1 ++ o2 ++ (if fin then [OutEvent.audioStop] else []) ++
        [OutEvent.synthesizeStopped]).any isStart)) := by
  subst hf
  rw [List.any_append, List.any_append, List.any_append,
    List.any_append, List.any_append, List.any_append]
  rw [h1, h2]
  cases sA <;> cases ho1 : o1.any isStart <;> cases ho2 : o2.any isStart <;>
    simp [isStop, isStart]

theorem handleEvent_stop_out {σ : Type} (eng : EngineModel) (sbdM : SbdModel σ)
    (st : HandlerState σ) (h : st.isStreaming = true) :
    (handleEvent eng sbdM InEvent.synthesizeStop st).1.isStreaming = false ∧
    (handleEvent eng sbdM InEvent.synthesizeStop st).2.1.any isStop =
      (st.audioStarted ||
        (handleEvent eng sbdM InEvent.synthesizeStop st).2.1.any isStart) := by
  rw [handleEvent_stop_streaming eng sbdM st h]
  dsimp only
  constructor
  · rfl
  · have hp1s : (if (sbdM.finish st.sbd).isEmpty then (st, ([] : List OutEvent))
        else processSentence eng st (sbdM.finish st.sbd)).1.audioStarted =
        (st.audioStarted ||
          (if (sbdM.finish st.sbd).isEmpty then (st, ([] : List OutEvent))
           else processSentence eng st (sbdM.finish st.sbd)).2.any isStart) := by
      split
      · simp
      · exact processSentence_started eng st (sbdM.finish st.sbd)
    have hp1n : (if (sbdM.finish st.sbd).isEmpty then (st, ([] : List OutEvent))
        else processSentence eng st (sbdM.finish st.sbd)).2.any isStop = false := by
      split
      · rfl
      · exact processSentence_noStop eng st (sbdM.finish st.sbd)
    refine stop_out_helper st.audioStarted _ _ _ hp1n (flushBuffer_noStop eng _) ?_
    rw [flushBuffer_started eng _, hp1s]
    cases st.audioStarted <;> simp

theorem runChunks_inv {σ : Type} (eng : EngineModel) (sbdM : SbdModel σ) (chunks : List String) :
    ∀ st : HandlerState σ, st.isStreaming = true →
      (runEvents eng sbdM (chunks.map InEvent.synthesizeChunk) st).1.isStreaming = true ∧
      (runEvents eng sbdM (chunks.map InEvent.synthesizeChunk) st).1.audioStarted =
        (st.audioStarted ||
          (runEvents eng sbdM (chunks.map InEvent.synthesizeChunk) st).2.any isStart) ∧
      (runEvents eng sbdM (chunks.map InEvent.synthesizeChunk) st).2.any isStop = false := by
  induction chunks with
  | nil =>
    intro st h
    rw [List.map_nil, runEvents_nil]
    exact ⟨h, by simp, rfl⟩
  | cons c rest ih =>
    intro st h
    rw [List.map_cons, runEvents_cons, handleEvent_chunk_streaming eng sbdM st c h]
    dsimp only
    have hfield := processSentences_fields eng
      { st with sbd := (sbdM.addChunk st.sbd c).2 } (sbdM.addChunk st.sbd c).1
    have hX : (processSentences eng { st with sbd := (sbdM.addChunk st.sbd c).2 }
        (sbdM.addChunk st.sbd c).1).1.isStreaming = true := hfield.1.trans h
    obtain ⟨i1, i2, i3⟩ := ih (processSentences eng { st with sbd := (sbdM.addChunk st.sbd c).2 }
        (sbdM.addChunk st.sbd c).1).1 hX
    refine ⟨i1, ?_, ?_⟩
    · rw [i2, processSentences_started eng { st with sbd := (sbdM.addChunk st.sbd c).2 }
        (sbdM.addChunk st.sbd c).1, List.any_append]
      exact Bool.or_assoc _ _ _
    · rw [List.any_append, i3,
        processSentences_noStop eng { st with sbd := (sbdM.addChunk st.sbd c).2 }
          (sbdM.addChunk st.sbd c).1]
      rfl

/-- The voice-resolution rule as the SPEC words it, for comparison with the
code (`resolveVoice`): requested voice if present in the catalog, then the
explicitly configured default voice, then the first catalog entry. -/
def resolveVoiceSpec (defaultVoice : String) (requested : Option String)
    (catalog : List String) : String :=
  match requested with
  | some r =>
    if catalog.contains r then r
    else if catalog.contains defaultVoice then defaultVoice
    else catalog.headD defaultVoice
  | none =>
    if catalog.contains defaultVoice then defaultVoice
    else catalog.headD defaultVoice

/-- The language fallback as the SPEC words it, for comparison with the code
(`processLang`): normalize to the first two characters lower-cased and fall
back to the configured default language when unsupported. -/
def processLangSpec (defaultLang : String) (langCode : String) : String :=
  let short := strToLower (langCode.take 2)
  if supportedLangs.contains short then short else defaultLang

/-- C1, counterexample: with catalog ["A", "M1"] and unknown requested voice
"Z", the code resolves to the first catalog entry "A", not to any default
voice — even though "M1" (the only default-like constant in the code) is in
the catalog, so a requested-default-first rule would return "M1". -/
theorem C1_counterexample :
    resolveVoice (some "Z") ["A", "M1"] = "A" ∧
    resolveVoiceSpec "M1" (some "Z") ["A", "M1"] = "M1" ∧
    ("A" : String) ≠ "M1" := by decide

/-- C1, amended: a requested voice that is non-empty and present in the
catalog is used as-is; otherwise the voice falls back directly to the first
catalog entry, and to the hard-coded constant "M1" only when the catalog is
empty (there is no explicitly configured default voice). -/
theorem C1_amended (cur : Option String) (catalog : List String) :
    ((cur.getD "").isEmpty = false → catalog.contains (cur.getD "") = true →
      resolveVoice cur catalog = cur.getD "") ∧
    ((cur.getD "").isEmpty = true ∨ catalog.contains (cur.getD "") = false →
      resolveVoice cur catalog = catalog.headD "M1") := by
  constructor
  · intro h1 h2
    unfold resolveVoice
    rw [h1, h2]
    rfl
  · intro h
    unfold resolveVoice
    rcases h with h | h
    · rw [h]
      cases catalog <;> rfl
    · rw [h]
      cases hc : (cur.getD "").isEmpty <;> cases catalog <;> rfl

/-- C1, witness for the amended claim at concrete inputs. -/
theorem C1_amended_witness :
    resolveVoice (some "B") ["A", "B"] = "B" ∧
    resolveVoice (some "Z") ["A", "B"] = "A" := by
  constructor
  · exact (C1_amended (some "B") ["A", "B"]).1 (by decide) (by decide)
  · exact ((C1_amended (some "Z") ["A", "B"]).2 (Or.inr (by decide))).trans (by decide)

/-- C2, counterexample: with the server configured with default language
"ko" (`--language ko`), synthesizing with the unsupported code "xx"
normalizes to the fixed constant "en", not to the configured default "ko"
as the claim states. -/
theorem C2_counterexample :
    processLang "xx" = "en" ∧
    processLangSpec "ko" "xx" = "ko" ∧
    ("en" : String) ≠ "ko" := by decide

/-- C2, amended: for every non-empty language code the engine uses its first
two characters lower-cased when that is in the supported list ("EN-us"
becomes "en"), and otherwise falls back to the fixed constant "en",
regardless of the configured default language. -/
theorem C2_amended (lang : String) :
    (lang.isEmpty = false →
      processLang lang =
        (if supportedLangs.contains (strToLower (lang.take 2))
         then strToLower (lang.take 2) else "en")) ∧
    processLang "EN-us" = "en" ∧
    (supportedLangs.contains (strToLower (lang.take 2)) = false →
      processLang lang = "en") := by
  refine ⟨?_, by decide, ?_⟩
  · intro h
    unfold processLang
    rw [h]
    rfl
  · intro h
    unfold processLang
    cases hc : lang.isEmpty
    · show (if supportedLangs.contains (strToLower (lang.take 2)) = true
          then strToLower (lang.take 2) else "en") = "en"
      rw [h]
      rfl
    · rfl

/-- C2, witness for the amended claim at concrete inputs. -/
theorem C2_amended_witness : processLang "EN-us" = "en" ∧ processLang "xx" = "en" :=
  ⟨(C2_amended "EN-us").2.1, (C2_amended "xx").2.2 (by decide)⟩

/-- A freshly initialized session that has received SynthesizeStart
(streaming, no audio yet). -/
def stStreaming : HandlerState Unit := { initState with isStreaming := true }

/-- A streaming session holding the short sentence "Short" in its buffer. -/
def stStopW : HandlerState Unit :=
  { initState with isStreaming := true, sentenceBuffer := "Short" }

/-- An idle session holding a buffered sentence longer than the threshold. -/
def stBufFail : HandlerState Unit :=
  { initState with sentenceBuffer := "A sentence that is long." }

/-- An idle session holding the buffered text "Hello". -/
def stBufW : HandlerState Unit := { initState with sentenceBuffer := "Hello" }

/-- An idle session holding the buffered text "Hello there". -/
def stC8st : HandlerState Unit := { initState with sentenceBuffer := "Hello there" }

/-- C4: a one-shot Synthesize received while streaming is acknowledged
(returns True), emits no events, and leaves the whole session state
unchanged (handler.py line 100: `if self._is_streaming: return True`
precedes every mutation). -/
theorem C4 {σ : Type} (eng : EngineModel) (sbdM : SbdModel σ) (st : HandlerState σ)
    (text : String) (v l : Option String) (h : st.isStreaming = true) :
    handleEvent eng sbdM (InEvent.synthesize text v l) st = (st, [], true) :=
  handleEvent_synthesize_streaming eng sbdM st text v l h

/-- C4, witness at a concrete streaming state. -/
theorem C4_witness :
    handleEvent okEngine idSbd (InEvent.synthesize "Hello" (some "F1") (some "ko"))
      stStreaming = (stStreaming, [], true) :=
  C4 okEngine idSbd stStreaming "Hello" (some "F1") (some "ko") rfl

/-- C5: when the engine call inside a buffer flush raises (modelled by
`synth` returning none), the flush catches it (handler.py lines 210-212),
emits no events at all (no Error, no audio), and leaves every state field
unchanged except the sentence buffer, which every flush consumes; in
particular streaming mode is untouched, so later chunks process normally. -/
theorem C5 {σ : Type} (eng : EngineModel) (st : HandlerState σ)
    (hfail : eng.synth (strTrim st.sentenceBuffer)
      (resolveVoice st.currentVoice eng.availableVoices) st.currentLanguage = none) :
    flushBuffer eng st = ({ st with sentenceBuffer := "" }, []) := by
  unfold flushBuffer engineDispatch
  dsimp only
  split
  · rfl
  · rw [hfail]

/-- C5, witness: a concrete failing engine on a concrete buffered state. -/
theorem C5_witness :
    flushBuffer failEngine stBufFail = ({ stBufFail with sentenceBuffer := "" }, []) :=
  C5 failEngine stBufFail rfl

/-- C6: the outer catch of handle_event (handler.py lines 156-161).  When
the body of the try block ends in an exception, the handler appends exactly
one Error event carrying the message (`str(err)`) and the kind
(`err.__class__.__name__`), force-resets streaming mode to Idle, and still
returns True so the connection stays open.  In this deterministic model
the body itself never raises (exceptions come from unmodelled collaborators
such as transport writes or malformed payloads), so the boundary is stated
for every possible interrupted body outcome. -/
theorem C6 {σ : Type} (st : HandlerState σ) (outs : List OutEvent) (e : ExcInfo) :
    applyCatch (st, outs, Except.error e) =
      ({ st with isStreaming := false }, outs ++ [OutEvent.error e.text e.code], true) := rfl

/-- C3, counterexample: a streaming utterance whose AudioStart was emitted
is interrupted by a new SynthesizeStart (handler.py lines 113-132 reset the
per-utterance state without closing the previous utterance); the full trace
contains an AudioStart but no AudioStop at all, refuting the
if-and-only-if for interrupted utterances. -/
theorem C3_counterexample :
    (runEvents okEngine idSbd
      [InEvent.synthesizeStart none none,
       InEvent.synthesizeChunk "A sentence that is long.",
       InEvent.synthesizeStart none none,
       InEvent.synthesizeStop] initState).2.any isStart = true ∧
    (runEvents okEngine idSbd
      [InEvent.synthesizeStart none none,
       InEvent.synthesizeChunk "A sentence that is long.",
       InEvent.synthesizeStart none none,
       InEvent.synthesizeStop] initState).2.any isStop = false ∧
    (runEvents okEngine idSbd
      [InEvent.synthesizeStart none none,
       InEvent.synthesizeChunk "A sentence that is long.",
       InEvent.synthesizeStart none none,
       InEvent.synthesizeStop] initState).1.isStreaming = false := by
  refine ⟨?_, ?_, ?_⟩ <;> decide

/-- C3, amended: for utterances that terminate normally the equivalence
holds — a streaming span that starts with no audio emitted and is closed by
SynthesizeStop emits an AudioStop exactly when it emitted an AudioStart
(and ends Idle), and a one-shot Synthesize handled while idle emits an
AudioStop exactly when it emitted an AudioStart.  Utterances interrupted by
a new SynthesizeStart (or cut short by the error path) may leave an
AudioStart without a matching AudioStop. -/
theorem C3_amended {σ : Type} (eng : EngineModel) (sbdM : SbdModel σ) (st0 : HandlerState σ) :
    (st0.isStreaming = true → st0.audioStarted = false →
      ∀ chunks : List String,
        (runEvents eng sbdM
          (chunks.map InEvent.synthesizeChunk ++ [InEvent.synthesizeStop]) st0).2.any isStop =
          (runEvents eng sbdM
            (chunks.map InEvent.synthesizeChunk ++ [InEvent.synthesizeStop]) st0).2.any isStart ∧
        (runEvents eng sbdM
          (chunks.map InEvent.synthesizeChunk ++ [InEvent.synthesizeStop]) st0).1.isStreaming = false) ∧
    (st0.isStreaming = false → ∀ (text : String) (v l : Option String),
      (handleEvent eng sbdM (InEvent.synthesize text v l) st0).2.1.any isStop =
        (handleEvent eng sbdM (InEvent.synthesize text v l) st0).2.1.any isStart) := by
  constructor
  · intro h0 hA chunks
    rw [runEvents_append]
    obtain ⟨i1, i2, i3⟩ := runChunks_inv eng sbdM chunks st0 h0
    rw [runEvents_cons, runEvents_nil]
    obtain ⟨s1, s2⟩ := handleEvent_stop_out eng sbdM
      (runEvents eng sbdM (chunks.map InEvent.synthesizeChunk) st0).1 i1
    dsimp only
    constructor
    · rw [List.append_nil, List.any_append, List.any_append, i3, s2, i2, hA]
      simp [Bool.or_assoc]
    · exact s1
  · intro h0 text v l
    rw [handleEvent_synthesize_idle eng sbdM st0 text v l h0]
    dsimp only
    exact handleSynthesizeFull_outs eng sbdM
      { st0 with currentVoice := updVoice v st0.currentVoice,
                 currentLanguage := updLang l st0.currentLanguage } text

/-- C3, witness for the amended claim on a concrete streaming trace. -/
theorem C3_amended_witness :
    ((runEvents okEngine idSbd
        (["A sentence that is long."].map InEvent.synthesizeChunk ++
          [InEvent.synthesizeStop]) stStreaming).2.any isStop =
      (runEvents okEngine idSbd
        (["A sentence that is long."].map InEvent.synthesizeChunk ++
          [InEvent.synthesizeStop]) stStreaming).2.any isStart) ∧
    (runEvents okEngine idSbd
      (["A sentence that is long."].map InEvent.synthesizeChunk ++
        [InEvent.synthesizeStop]) stStreaming).1.isStreaming = false :=
  (C3_amended okEngine idSbd stStreaming).1 rfl rfl ["A sentence that is long."]

/-- C7: a SynthesizeStop received while streaming (handler.py lines
143-154) performs, in this order: process the truthy segmenter remainder
through sentence processing, run a final buffer flush, emit AudioStop
exactly when audio was started for the utterance, emit SynthesizeStopped
unconditionally, and clear the streaming flag; the handler returns True. -/
theorem C7 {σ : Type} (eng : EngineModel) (sbdM : SbdModel σ) (st : HandlerState σ)
    (h : st.isStreaming = true) :
    handleEvent eng sbdM InEvent.synthesizeStop st =
      (let p1 := if (sbdM.finish st.sbd).isEmpty then (st, ([] : List OutEvent))
                 else processSentence eng st (sbdM.finish st.sbd)
       let p2 := flushBuffer eng p1.1
       ({ p2.1 with isStreaming := false },
        p1.2 ++ p2.2 ++ (if p2.1.audioStarted then [OutEvent.audioStop] else []) ++
          [OutEvent.synthesizeStopped],
        true)) ∧
    (handleEvent eng sbdM InEvent.synthesizeStop st).1.isStreaming = false :=
  ⟨handleEvent_stop_streaming eng sbdM st h, (handleEvent_stop_out eng sbdM st h).1⟩

/-- C7, witness on a concrete streaming state with a buffered sentence. -/
theorem C7_witness :
    handleEvent okEngine idSbd InEvent.synthesizeStop stStopW =
      ({ stStopW with isStreaming := false, sentenceBuffer := "", audioStarted := true },
       [OutEvent.audioStart 44100 2 1, OutEvent.audioChunk [1, 2, 3] 44100 2 1,
        OutEvent.audioStop, OutEvent.synthesizeStopped], true) ∧
    (handleEvent okEngine idSbd InEvent.synthesizeStop stStopW).1.isStreaming = false := by
  have h := C7 okEngine idSbd stStopW rfl
  exact ⟨h.1.trans (by decide), h.2⟩

/-- C8: a successful flush of a non-empty buffer emits AudioStart (carrying
the rate and the fixed width 2 / channels 1) exactly when this is the first
audio of the utterance, ahead of all AudioChunk events, and marks the flag
so no later flush of the utterance repeats it; the PCM bytes are emitted as
consecutive in-order AudioChunk slices whose concatenation is the full
buffer, each at most 2048 bytes, all non-final slices exactly 2048. -/
theorem C8 {σ : Type} (eng : EngineModel) (st : HandlerState σ) (pcm : List Nat) (rate : Nat)
    (hne : (strTrim st.sentenceBuffer).isEmpty = false)
    (hok : eng.synth (strTrim st.sentenceBuffer)
      (resolveVoice st.currentVoice eng.availableVoices) st.currentLanguage = some (pcm, rate)) :
    (flushBuffer eng st).2 =
      (if st.audioStarted then [] else [OutEvent.audioStart rate 2 1]) ++
        (chunkBytes pcm).map (fun b => OutEvent.audioChunk b rate 2 1) ∧
    (flushBuffer eng st).1.audioStarted = true ∧
    List.flatten (chunkBytes pcm) = pcm ∧
    (∀ b ∈ chunkBytes pcm, b.length ≤ 2048 ∧ b ≠ []) ∧
    (∀ i : Nat, i + 1 < (chunkBytes pcm).length →
      (List.getD (chunkBytes pcm) i []).length = 2048) := by
  refine ⟨?_, ?_, chunkBytes_join pcm, chunkBytes_mem pcm, chunkBytes_nonfinal pcm⟩
  · unfold flushBuffer engineDispatch
    dsimp only
    rw [if_neg (by simp [hne]), hok]
    dsimp only
    cases hA : st.audioStarted <;> simp [hA]
  · unfold flushBuffer engineDispatch
    dsimp only
    rw [if_neg (by simp [hne]), hok]
    dsimp only
    cases hA : st.audioStarted <;> simp [hA]

/-- C8, witness on a concrete buffered state and engine result. -/
theorem C8_witness :
    (flushBuffer okEngine stC8st).2 =
      [OutEvent.audioStart 44100 2 1, OutEvent.audioChunk [1, 2, 3] 44100 2 1] ∧
    (flushBuffer okEngine stC8st).1.audioStarted = true ∧
    List.flatten (chunkBytes [1, 2, 3]) = [1, 2, 3] := by
  have h := C8 okEngine stC8st [1, 2, 3] 44100 (by decide) rfl
  exact ⟨h.1.trans (by decide), h.2.1, h.2.2.1⟩


/-- C9: the sentence-buffer contract (handler.py lines 180-195): an
all-whitespace sentence is ignored; a non-empty stripped sentence is
space-joined onto a non-empty buffer (or becomes the buffer when it was
empty); a flush runs as soon as the buffered length reaches 20 characters,
otherwise only the buffer grows; the flushed text is the trimmed buffer and
an empty or whitespace-only buffer flushes to nothing, touching no engine. -/
theorem C9 {σ : Type} (eng : EngineModel) (st : HandlerState σ) (sentence : String) :
    ((strTrim sentence).isEmpty = true → processSentence eng st sentence = (st, [])) ∧
    ((strTrim sentence).isEmpty = false → st.sentenceBuffer.isEmpty = false →
      (20 ≤ (st.sentenceBuffer ++ " " ++ strTrim sentence).length →
        processSentence eng st sentence =
          flushBuffer eng
            { st with sentenceBuffer := st.sentenceBuffer ++ " " ++ strTrim sentence }) ∧
      ((st.sentenceBuffer ++ " " ++ strTrim sentence).length < 20 →
        processSentence eng st sentence =
          ({ st with sentenceBuffer := st.sentenceBuffer ++ " " ++ strTrim sentence }, []))) ∧
    ((strTrim sentence).isEmpty = false → st.sentenceBuffer.isEmpty = true →
      (20 ≤ (strTrim sentence).length →
        processSentence eng st sentence =
          flushBuffer eng { st with sentenceBuffer := strTrim sentence }) ∧
      ((strTrim sentence).length < 20 →
        processSentence eng st sentence = ({ st with sentenceBuffer := strTrim sentence }, []))) ∧
    ((strTrim st.sentenceBuffer).isEmpty = true →
      ∀ eng2 : EngineModel, flushBuffer eng2 st = ({ st with sentenceBuffer := "" }, [])) ∧
    ((strTrim st.sentenceBuffer).isEmpty = false →
      flushBuffer eng st =
        engineDispatch eng { st with sentenceBuffer := "" } (strTrim st.sentenceBuffer)) := by
  refine ⟨?_, ?_, ?_, ?_, ?_⟩
  · intro h1
    unfold processSentence
    dsimp only
    rw [if_pos h1]
  · intro h1 h2
    unfold processSentence
    dsimp only
    simp only [h1, h2, Bool.false_eq_true, if_false]
    constructor
    · intro h3
      rw [if_pos h3]
    · intro h3
      rw [if_neg (by omega)]
  · intro h1 h2
    unfold processSentence
    dsimp only
    simp only [h1, h2, Bool.false_eq_true, if_false, if_true]
    constructor
    · intro h3
      rw [if_pos h3]
    · intro h3
      rw [if_neg (by omega)]
  · intro h1 eng2
    unfold flushBuffer
    dsimp only
    rw [if_pos h1]
  · intro h1
    unfold flushBuffer
    dsimp only
    rw [if_neg (by simp [h1])]

/-- An idle session whose buffer holds only whitespace. -/
def stWS : HandlerState Unit := { initState with sentenceBuffer := "   " }

/-- C9, witness: accumulating " Hi. " onto buffer "Hello" stays below the
threshold and space-joins trimmed; flushing a whitespace-only buffer is a
no-op. -/
theorem C9_witness :
    processSentence okEngine stBufW " Hi. " =
      ({ stBufW with sentenceBuffer := "Hello Hi." }, []) ∧
    flushBuffer okEngine stWS = ({ stWS with sentenceBuffer := "" }, []) := by
  constructor
  · have h := ((C9 okEngine stBufW " Hi. ").2.1 (by decide) (by decide)).2 (by decide)
    exact h.trans (by decide)
  · have h := (C9 okEngine stWS "").2.2.2.1 (by decide) okEngine
    exact h

/-- C10: a one-shot Synthesize received mid-stream leaves the whole state,
including the current voice and language, untouched (the early return at
handler.py line 100 precedes the override-recording lines 106-108), while
the same event accepted while idle records a present non-empty voice name
and language into the session state, where they persist after the call. -/
theorem C10 {σ : Type} (eng : EngineModel) (sbdM : SbdModel σ) (st : HandlerState σ)
    (text : String) (v l : Option String) :
    (st.isStreaming = true →
      (handleEvent eng sbdM (InEvent.synthesize text v l) st).1 = st) ∧
    (st.isStreaming = false → ∀ n, v = some n → n.isEmpty = false →
      (handleEvent eng sbdM (InEvent.synthesize text v l) st).1.currentVoice = some n) ∧
    (st.isStreaming = false → ∀ m, l = some m → m.isEmpty = false →
      (handleEvent eng sbdM (InEvent.synthesize text v l) st).1.currentLanguage = m) := by
  refine ⟨?_, ?_, ?_⟩
  · intro h
    rw [handleEvent_synthesize_streaming eng sbdM st text v l h]
  · intro h n hv hn
    rw [handleEvent_synthesize_idle eng sbdM st text v l h]
    dsimp only
    rw [(handleSynthesizeFull_fields eng sbdM
      { st with currentVoice := updVoice v st.currentVoice,
                currentLanguage := updLang l st.currentLanguage } text).2.1]
    subst hv
    show updVoice (some n) st.currentVoice = some n
    simp [updVoice, hn]
  · intro h m hl hm
    rw [handleEvent_synthesize_idle eng sbdM st text v l h]
    dsimp only
    rw [(handleSynthesizeFull_fields eng sbdM
      { st with currentVoice := updVoice v st.currentVoice,
                currentLanguage := updLang l st.currentLanguage } text).2.2.1]
    subst hl
    show updLang (some m) st.currentLanguage = m
    simp [updLang, hm]

/-- C10, witness: the same overriding event applied to a streaming state
(discarded) and to the idle initial state (recorded). -/
theorem C10_witness :
    (handleEvent okEngine idSbd (InEvent.synthesize "Hi" (some "F3") (some "ko"))
      stStreaming).1 = stStreaming ∧
    (handleEvent okEngine idSbd (InEvent.synthesize "Hi" (some "F3") (some "ko"))
      initState).1.currentVoice = some "F3" ∧
    (handleEvent okEngine idSbd (InEvent.synthesize "Hi" (some "F3") (some "ko"))
      initState).1.currentLanguage = "ko" :=
  ⟨(C10 okEngine idSbd stStreaming "Hi" (some "F3") (some "ko")).1 rfl,
   (C10 okEngine idSbd initState "Hi" (some "F3") (some "ko")).2.1 rfl "F3" rfl (by decide),
   (C10 okEngine idSbd initState "Hi" (some "F3") (some "ko")).2.2 rfl "ko" rfl (by decide)⟩
